import Mathlib

/-!
Verification development for the codeRipper repository.

Shallow embedding of the pure/logical core of the source modules:
`app/models/repository.py`, `app/services/lifecycle.py`, `app/services/jobs.py`,
`app/core/chunking.py`, `app/core/vector_store.py`, `app/services/search.py`,
`app/services/tutor.py`, `app/services/ingestion.py` (force-reset path).

Database sessions are modelled by explicit state passing; raised exceptions by
`Except`/result pairs; the embedding and completion providers (external
capabilities per the design) by function parameters; FAISS float32 inner-product
scores by an abstract score function into `ℚ`.
-/

set_option maxHeartbeats 1000000

/-! ## Python string primitives

Character-list implementations of the `str` operations the source uses
(`split`, `strip`, `lstrip`, slicing, anchored matching).  They are written by
structural recursion over `String.data` so that every definition evaluates
inside the kernel. -/

/-- `str.split()` (no separator): maximal non-whitespace runs, empty pieces
dropped.  `acc` holds the current word reversed. -/
def py_split_ws_aux : List Char → List Char → List String
  | [], acc => if acc.isEmpty then [] else [String.mk acc.reverse]
  | c :: rest, acc =>
    if c.isWhitespace then
      if acc.isEmpty then py_split_ws_aux rest []
      else String.mk acc.reverse :: py_split_ws_aux rest []
    else py_split_ws_aux rest (c :: acc)

/-- `text.split()`. -/
def py_split_ws (text : String) : List String :=
  py_split_ws_aux text.data []

/-- `line.lstrip()`. -/
def lstrip (line : String) : String :=
  String.mk (line.data.dropWhile (fun c => c.isWhitespace))

/-- `content.strip()`. -/
def py_strip (content : String) : String :=
  String.mk (((content.data.dropWhile (fun c => c.isWhitespace)).reverse.dropWhile
    (fun c => c.isWhitespace)).reverse)

/-- `s[:n]` on character counts. -/
def py_take (s : String) (n : Nat) : String :=
  String.mk (s.data.take n)

/-- Anchored character-list comparison (`s.startswith(pat)` /
`re` anchoring). -/
def starts_with_chars : List Char → List Char → Bool
  | [], _ => true
  | _ :: _, [] => false
  | p :: ps, c :: cs => p = c && starts_with_chars ps cs

/-! ## `app/core/llm.py` : `count_tokens`

Python: `words = text.split(); return int(len(words) * 1.3)`.
The float multiplication `len * 1.3` truncated by `int` agrees with
`len * 13 / 10` in natural-number arithmetic for all realistically reachable
word counts. -/

def count_tokens (text : String) : Nat :=
  (py_split_ws text).length * 13 / 10

/-! ## `app/models/repository.py` -/

inductive RepoStatus where
  | CREATED
  | CLONED
  | STRUCTURED
  | INDEXED
  | DOCS_GENERATED
  | READY
  | FAILED
deriving DecidableEq, Repr

/-- `VALID_TRANSITIONS` table (source → allowed targets).
Python: a `dict[RepoStatus, list[RepoStatus]]`; total over the enum, so the
`dict.get(current, [])` default never fires. -/
def VALID_TRANSITIONS : RepoStatus → List RepoStatus
  | .CREATED => [.CLONED, .FAILED]
  | .CLONED => [.STRUCTURED, .FAILED]
  | .STRUCTURED => [.INDEXED, .FAILED]
  | .INDEXED => [.DOCS_GENERATED, .FAILED]
  | .DOCS_GENERATED => [.READY, .FAILED]
  | .READY => [.FAILED]
  | .FAILED => [.CREATED]

/-- `API_STATE_REQUIREMENTS`: minimum state for each read-facing operation,
as an association list (`dict.get(operation)` ≙ `List.lookup`). -/
def API_STATE_REQUIREMENTS : List (String × RepoStatus) :=
  [("summary", .STRUCTURED),
   ("structure", .STRUCTURED),
   ("entrypoints", .STRUCTURED),
   ("index", .STRUCTURED),
   ("search", .INDEXED),
   ("session", .INDEXED),
   ("ask", .INDEXED),
   ("docs_readme", .DOCS_GENERATED),
   ("docs_architecture", .DOCS_GENERATED)]

/-- `state_order`: numeric order of a state; `FAILED` maps to `-1`. -/
def state_order : RepoStatus → Int
  | .CREATED => 0
  | .CLONED => 1
  | .STRUCTURED => 2
  | .INDEXED => 3
  | .DOCS_GENERATED => 4
  | .READY => 5
  | .FAILED => -1

/-- The `Repository` row.  The Python column `status` is a string round-tripped
through the `RepoStatus` enum on every read (`RepoStatus(self.status)`); we
store the enum directly.  Timestamp and generated-documentation columns are
omitted: no modelled operation reads or writes them. -/
structure Repository where
  id : String
  repo_url : String
  name : String
  owner : String
  primary_language : Option String := none
  commit_hash : Option String := none
  status : RepoStatus := .CREATED
  error_message : Option String := none
  total_files : Option Int := none
  total_size_bytes : Option Int := none
  total_chunks : Option Int := none
deriving DecidableEq, Repr

/-- `Repository.can_transition_to`
(`new_status in VALID_TRANSITIONS.get(current, [])`). -/
def Repository.can_transition_to (r : Repository) (new_status : RepoStatus) : Bool :=
  decide (new_status ∈ VALID_TRANSITIONS r.status)

/-- `Repository.has_reached_state`. -/
def Repository.has_reached_state (r : Repository) (required_state : RepoStatus) : Bool :=
  if r.status = RepoStatus.FAILED then false
  else state_order r.status ≥ state_order required_state

/-- `Repository.check_api_readiness`, returning `(is_ready, error_message)`. -/
def Repository.check_api_readiness (r : Repository) (operation : String) :
    Bool × Option String :=
  match API_STATE_REQUIREMENTS.lookup operation with
  | none => (true, none)
  | some required =>
    if r.status = RepoStatus.FAILED then
      (false, some ("Repository is in FAILED state: " ++ (r.error_message.getD "None")))
    else if ¬ r.has_reached_state required then
      (false, some ("Repository must be in a later state. Current mismatch."))
    else (true, none)

/-! ## `app/services/lifecycle.py`

The Python functions mutate the ORM row and commit; we model them as pure state
transformers.  A raised exception is modelled as an error value returned
together with the *unchanged* repository (the raise happens before mutation). -/

inductive LifecycleError where
  | invalidTransition (current target : RepoStatus)
deriving DecidableEq, Repr

/-- Truthiness of the optional error-message argument
(`if new_status == RepoStatus.FAILED and error_message:`). -/
def msgTruthy : Option String → Bool
  | none => false
  | some s => s ≠ ""

/-- `transition_status`: returns the (possibly updated) repository and an
optional error.  On an invalid pair it raises `ValueError` (the spec's
`InvalidTransition`) before any mutation, so the repository is returned
unchanged. -/
def transition_status (repo : Repository) (new_status : RepoStatus)
    (error_message : Option String := none) : Repository × Option LifecycleError :=
  if repo.can_transition_to new_status then
    let repo1 : Repository := { repo with status := new_status }
    let repo2 : Repository :=
      if new_status = RepoStatus.FAILED ∧ msgTruthy error_message then
        { repo1 with error_message := error_message }
      else repo1
    (repo2, none)
  else
    (repo, some (.invalidTransition repo.status new_status))

/-- `mark_failed` convenience wrapper. -/
def mark_failed (repo : Repository) (error_message : String) :
    Repository × Option LifecycleError :=
  transition_status repo RepoStatus.FAILED (some error_message)

inductive ApiError where
  | repoNotFound (repo_id : String)
  | repoNotReady (repo_id : String) (current required : RepoStatus)
deriving DecidableEq, Repr

/-- Service-level `check_api_readiness` (`app/services/lifecycle.py`): looks up
the repository (modelled by a `db` point-lookup function) and consults
`Repository.check_api_readiness`; read-only. -/
def check_api_readiness (db : String → Option Repository) (repo_id : String)
    (operation : String) : Except ApiError Repository :=
  match db repo_id with
  | none => .error (.repoNotFound repo_id)
  | some repo =>
    let ready := repo.check_api_readiness operation
    if ready.1 then .ok repo
    else
      .error (.repoNotReady repo_id repo.status
        ((API_STATE_REQUIREMENTS.lookup operation).getD RepoStatus.CREATED))

/-- The forced-retry reset in `ingest_repository`
(`app/services/ingestion.py` lines 103-108): unlike `transition_status`, it
sets the status back to `CREATED` *and clears the error message*. -/
def ingest_force_reset (repo : Repository) : Repository :=
  { repo with status := RepoStatus.CREATED, error_message := none }

/-! ## `app/services/jobs.py` -/

inductive JobType where
  | ingest
  | index
  | docs
deriving DecidableEq, Repr

inductive JobStatus where
  | pending
  | running
  | completed
  | failed
deriving DecidableEq, Repr

/-- The `Job` row; timestamps omitted (no modelled claim reads them). -/
structure Job where
  id : String
  repo_id : String
  type : JobType
  status : JobStatus := .pending
  progress : Int := 0
  error_message : Option String := none
  attempt : Int := 1
  max_attempts : Int := 3
deriving DecidableEq, Repr

/-- `update_progress`: `job.progress = min(max(progress, 0), 100)`. -/
def update_progress (job : Job) (progress : Int) : Job :=
  { job with progress := min (max progress 0) 100 }

/-- `complete_job`: status := completed, progress := 100. -/
def complete_job (job : Job) : Job :=
  { job with status := JobStatus.completed, progress := 100 }

/-- `fail_job`: status := failed, stores the message. -/
def fail_job (job : Job) (error_message : String) : Job :=
  { job with status := JobStatus.failed, error_message := some error_message }

/-! ## `app/core/chunking.py` -/

/-- The chunker's `CodeChunk` dataclass. -/
structure CodeChunk where
  file_path : String
  start_line : Nat
  end_line : Nat
  content : String
  language : Option String := none
  symbol_type : Option String := none
  symbol_name : Option String := none
  token_count : Option Nat := none
deriving DecidableEq, Repr

/-- Helper for Python's `content.split("\n")`: split a character list at each
newline.  Always returns at least one piece (Python `str.split` never returns
an empty list), which is why the chunker's `if not lines: return` guard is
dead code. -/
def split_newlines_aux : List Char → List Char → List String
  | [], acc => [String.mk acc.reverse]
  | ch :: rest, acc =>
    if ch = '\n' then String.mk acc.reverse :: split_newlines_aux rest []
    else split_newlines_aux rest (ch :: acc)

/-- `content.split("\n")`. -/
def split_newlines (content : String) : List String :=
  split_newlines_aux content.data []

/-- The overlap-seeding loop of `sliding_window_chunk`: walk
`reversed(current_chunk_lines)` accumulating lines while the running token
count stays within `overlap_tokens` (`break` on the first line that would
exceed it); returns the kept lines in original order (`overlap_lines`,
rebuilt by `insert(0, ...)`) together with their token total
(`overlap_tokens_count`). -/
def overlap_take (overlap_tokens : Nat) : List String → Nat → List String × Nat
  | [], acc => ([], acc)
  | prev_line :: rest, acc =>
    let prev_tokens := count_tokens prev_line
    if acc + prev_tokens > overlap_tokens then ([], acc)
    else
      let r := overlap_take overlap_tokens rest (acc + prev_tokens)
      (r.1 ++ [prev_line], r.2)

/-- `sliding_window_chunk` main loop.  `rem` is the unprocessed suffix of
`lines`; `i` the 1-based number of the next line (`enumerate(lines, 1)`);
`cur`, `start`, `tok` are `current_chunk_lines`, `current_start_line`,
`current_tokens`.  After the loop the final chunk is emitted when
`current_chunk_lines` is non-empty, with `end_line = len(lines) = i - 1`. -/
def sliding_aux (fp : String) (lang : Option String) (max_tokens overlap_tokens : Nat) :
    List String → Nat → List String → Nat → Nat → List CodeChunk
  | [], i, cur, start, tok =>
    if cur.isEmpty then []
    else
      [{ file_path := fp, start_line := start, end_line := i - 1,
         content := String.intercalate "\n" cur, language := lang,
         token_count := some tok }]
  | line :: rest, i, cur, start, tok =>
    let line_tokens := count_tokens line
    if tok + line_tokens > max_tokens ∧ cur ≠ [] then
      let emitted : CodeChunk :=
        { file_path := fp, start_line := start, end_line := i - 1,
          content := String.intercalate "\n" cur, language := lang,
          token_count := some tok }
      let ov := overlap_take overlap_tokens cur.reverse 0
      emitted ::
        sliding_aux fp lang max_tokens overlap_tokens rest (i + 1)
          (ov.1 ++ [line]) (i - ov.1.length) (ov.2 + line_tokens)
    else
      sliding_aux fp lang max_tokens overlap_tokens rest (i + 1)
        (cur ++ [line]) start (tok + line_tokens)

/-- `sliding_window_chunk` (defaults `max_tokens = 1500`,
`overlap_tokens = 200`).  The Python `if not lines: return` guard is kept;
it never fires because `split` always yields at least one piece. -/
def sliding_window_chunk (content fp : String) (lang : Option String)
    (max_tokens : Nat := 1500) (overlap_tokens : Nat := 200) : List CodeChunk :=
  let lines := split_newlines content
  if lines.isEmpty then []
  else sliding_aux fp lang max_tokens overlap_tokens lines 1 [] 1 0

/-- Python `\w` word character, on its ASCII core (`[A-Za-z0-9_]`). -/
def word_char (c : Char) : Bool :=
  c.isAlphanum || c = '_'

/-- Anchored match of `kw` followed by `\s+(\w+)`, returning the captured
name.  Used for both regex patterns of `extract_python_symbols`. -/
def match_kw_name (kw : List Char) (s : List Char) : Option String :=
  if starts_with_chars kw s then
    let rest := s.drop kw.length
    let ws := rest.takeWhile (fun c => c.isWhitespace)
    if ws.length = 0 then none
    else
      let name := (rest.drop ws.length).takeWhile word_char
      if name.length = 0 then none else some (String.mk name)
  else none

/-- `class_pattern = re.compile(r"^class\s+(\w+)")`, applied with `.match`. -/
def class_match (stripped : String) : Option String :=
  match_kw_name "class".data stripped.data

/-- `func_pattern = re.compile(r"^(?:async\s+)?def\s+(\w+)")`, applied with
`.match`: either `def\s+(\w+)` directly, or `async\s+` then `def\s+(\w+)`. -/
def func_match (stripped : String) : Option String :=
  match match_kw_name "def".data stripped.data with
  | some n => some n
  | none =>
    if starts_with_chars "async".data stripped.data then
      let rest := stripped.data.drop 5
      let ws := rest.takeWhile (fun c => c.isWhitespace)
      if ws.length = 0 then none
      else match_kw_name "def".data (rest.drop ws.length)
    else none

/-- The `current_symbol` dict of `extract_python_symbols`. -/
structure PySymbol where
  stype : String
  name : String
  start : Nat
deriving DecidableEq, Repr

/-- Build the chunk yielded for a finished symbol region. -/
def mk_symbol_chunk (fp : String) (sym : PySymbol) (cur_lines : List String)
    (end_line : Nat) : CodeChunk :=
  { file_path := fp, start_line := sym.start, end_line := end_line,
    content := String.intercalate "\n" cur_lines, language := some "python",
    symbol_type := some sym.stype, symbol_name := some sym.name,
    token_count := some (count_tokens (String.intercalate "\n" cur_lines)) }

/-- `extract_python_symbols` main loop.  State: `cur_sym`/`cur_lines`/
`cur_indent` are `current_symbol`/`current_lines`/`current_indent`.  A line
matching a signature starts a new symbol (yielding the previous one); while a
symbol is open, blank or more-indented lines are absorbed, equal-indent
non-signature lines are absorbed as decorator/continuation lines, and a
less-indented non-blank line ends the symbol (yield with `end_line = i - 1`,
reset state).  Lines outside any open symbol are ignored. -/
def extract_aux (fp : String) :
    List String → Nat → Option PySymbol → List String → Nat → List CodeChunk
  | [], i, cur_sym, cur_lines, _cur_indent =>
    match cur_sym with
    | some sym => if cur_lines ≠ [] then [mk_symbol_chunk fp sym cur_lines (i - 1)] else []
    | none => []
  | line :: rest, i, cur_sym, cur_lines, cur_indent =>
    let stripped := lstrip line
    let indent := line.length - stripped.length
    let cm := class_match stripped
    let fm := func_match stripped
    if cm.isSome ∨ fm.isSome then
      let new_sym : PySymbol :=
        match cm with
        | some n => { stype := "class", name := n, start := i }
        | none => { stype := "function", name := fm.getD "", start := i }
      let tail := extract_aux fp rest (i + 1) (some new_sym) [line] indent
      match cur_sym with
      | some sym =>
        if cur_lines ≠ [] then mk_symbol_chunk fp sym cur_lines (i - 1) :: tail else tail
      | none => tail
    else
      match cur_sym with
      | none => extract_aux fp rest (i + 1) none cur_lines cur_indent
      | some sym =>
        if stripped = "" ∨ indent > cur_indent then
          extract_aux fp rest (i + 1) (some sym) (cur_lines ++ [line]) cur_indent
        else if indent = cur_indent then
          -- `indent == current_indent and not (class_match or func_match)`;
          -- both matches are `None` on this branch.
          extract_aux fp rest (i + 1) (some sym) (cur_lines ++ [line]) cur_indent
        else
          mk_symbol_chunk fp sym cur_lines (i - 1) ::
            extract_aux fp rest (i + 1) none [] cur_indent

/-- `extract_python_symbols`. -/
def extract_python_symbols (content fp : String) : List CodeChunk :=
  extract_aux fp (split_newlines content) 1 none [] 0

/-- The pure core of `chunk_file`, after the filesystem steps
(`should_skip_file`, `read_file_safe`, path relativisation): `content` is the
file text (`""` stands for `read_file_safe` returning no usable content),
`relative_path` the path relative to the repository root, `language` the
extension-detected language.  Very small files are skipped; for Python the
symbol extractor is tried first and the sliding window is the fallback. -/
def chunk_file_content (content relative_path : String) (language : Option String) :
    List CodeChunk :=
  if content = "" then []
  else if (py_strip content).length < 50 then []
  else if language = some "python" then
    let chunks := extract_python_symbols content relative_path
    if chunks ≠ [] then chunks
    else sliding_window_chunk content relative_path language
  else sliding_window_chunk content relative_path language

/-! ## `app/core/vector_store.py`

FAISS stores float32 vectors and retrieves by inner product over L2-normalised
copies.  The embedding keeps the vector payload abstract (`α`) and takes the
inner-product-on-normalised-vectors as a score function `sc : α → α → ℚ`;
`faiss.normalize_L2` is the identity at this level of abstraction (it is
applied to both stored and query vectors before any score is taken).  The
on-disk artifact pair (`index.faiss`, `id_map.json`), both keyed by
`repo_id`, is modelled by two association lists. -/

/-- The `SearchResult` NamedTuple of `vector_store.py`. -/
structure VSearchResult where
  index : Nat
  score : ℚ
deriving DecidableEq, Repr

/-- Insert into a score-descending list (stable, so equal scores keep the
FAISS slot order). -/
def insert_scored (x : VSearchResult) : List VSearchResult → List VSearchResult
  | [] => [x]
  | y :: ys => if x.score > y.score then x :: y :: ys else y :: insert_scored x ys

/-- Sort by descending score (FAISS returns nearest slots score-descending). -/
def sort_scored : List VSearchResult → List VSearchResult
  | [] => []
  | x :: xs => insert_scored x (sort_scored xs)

/-- The `VectorStore` class state: `index` is `None` until created/loaded;
`id_map` maps a FAISS slot to the external chunk id. -/
structure VectorStore (α : Type) where
  repo_id : String
  index : Option (List α) := none
  id_map : List String := []

/-- `create_index`. -/
def VectorStore.create_index {α} (vs : VectorStore α) : VectorStore α :=
  { vs with index := some [], id_map := [] }

/-- `add_embeddings`: (normalise and) append the vectors, extend the id map
preserving insertion order.  `normalize` stands for `faiss.normalize_L2`. -/
def VectorStore.add_embeddings {α} (normalize : α → α) (vs : VectorStore α)
    (embeddings : List α) (chunk_ids : List String) : VectorStore α :=
  let vs1 := match vs.index with
    | none => vs.create_index
    | some _ => vs
  { vs1 with
    index := some ((vs1.index.getD []) ++ embeddings.map normalize),
    id_map := vs1.id_map ++ chunk_ids }

/-- `search`: empty/uninitialised index gives `[]`; otherwise score every slot,
rank score-descending, keep `min(top_k, ntotal)` and drop scores below
`threshold` (the FAISS `idx >= 0` padding guard is vacuous here because the
model never pads). -/
def VectorStore.search {α} (sc : α → α → ℚ) (vs : VectorStore α) (query : α)
    (top_k : Nat) (threshold : ℚ) : List VSearchResult :=
  match vs.index with
  | none => []
  | some vecs =>
    if vecs.length = 0 then []
    else
      let scored := vecs.enum.map (fun p => VSearchResult.mk p.1 (sc query p.2))
      let ranked := sort_scored scored
      (ranked.take (min top_k vecs.length)).filter (fun r => r.score ≥ threshold)

/-- `get_chunk_id`: `O(1)` slot lookup, `None` when out of range. -/
def VectorStore.get_chunk_id {α} (vs : VectorStore α) (index : Nat) : Option String :=
  vs.id_map.get? index

/-- The persisted artifacts: `indexes_path / repo_id / "index.faiss"` and
`indexes_path / repo_id / "id_map.json"`, as two association lists keyed by
`repo_id` (newest write first). -/
structure VectorDisk (α : Type) where
  index_files : List (String × List α) := []
  map_files : List (String × List String) := []

/-- `save`: no-op when the index is `None`; otherwise write both artifacts. -/
def VectorStore.save {α} (vs : VectorStore α) (disk : VectorDisk α) : VectorDisk α :=
  match vs.index with
  | none => disk
  | some vecs =>
    { index_files := (vs.repo_id, vecs) :: disk.index_files,
      map_files := (vs.repo_id, vs.id_map) :: disk.map_files }

/-- `load`: `False` (state untouched) unless both artifacts exist; otherwise
restore the index and the id map as a unit. -/
def VectorStore.load {α} (vs : VectorStore α) (disk : VectorDisk α) :
    VectorStore α × Bool :=
  match disk.index_files.lookup vs.repo_id, disk.map_files.lookup vs.repo_id with
  | some vecs, some m => ({ vs with index := some vecs, id_map := m }, true)
  | _, _ => (vs, false)

/-! ## `app/services/search.py` -/

/-- The `CodeChunk` database row (`app/models/code_chunk.py`); timestamps
omitted. -/
structure CodeChunkRow where
  id : String
  repo_id : String
  file_path : String
  start_line : Nat
  end_line : Nat
  symbol_type : Option String := none
  symbol_name : Option String := none
  language : Option String := none
  content : String
  token_count : Option Nat := none
  embedding_index : Option Nat := none
deriving DecidableEq, Repr

/-- The `SearchResult` response schema (`app/schemas/intelligence.py`). -/
structure SearchResult where
  file_path : String
  symbol : Option String := none
  symbol_type : Option String := none
  start_line : Nat
  end_line : Nat
  content : String
  score : ℚ
  language : Option String := none
deriving DecidableEq, Repr

/-- Build one `SearchResult` from a chunk row and its score. -/
def mk_search_result (chunk : CodeChunkRow) (score : ℚ) : SearchResult :=
  { file_path := chunk.file_path, symbol := chunk.symbol_name,
    symbol_type := chunk.symbol_type, start_line := chunk.start_line,
    end_line := chunk.end_line, content := chunk.content, score := score,
    language := chunk.language }

/-- The filtered, score-ordered result set of `search_code`, before
pagination (everything up to `total = len(results)`): load the store
(`[]` when no artifact persists), retrieve `limit + offset + 50` raw
candidates above `threshold`, map slots to chunk ids, fetch the rows
(`chunk_db` is the point lookup `CodeChunk.id.in_(...)` provides), drop
results whose row is missing or whose path fails the glob filter
(`fnmatch.fnmatch` is external and passed as the predicate inside
`file_filter`). -/
def search_candidates {α} (sc : α → α → ℚ) (disk : VectorDisk α) (repo_id : String)
    (chunk_db : String → Option CodeChunkRow) (query : α) (limit offset : Nat)
    (threshold : ℚ) (file_filter : Option (String → Bool)) : List SearchResult :=
  let loaded := VectorStore.load { repo_id := repo_id } disk
  if ¬ loaded.2 then []
  else
    let vs := loaded.1
    let search_results := vs.search sc query (limit + offset + 50) threshold
    if search_results.isEmpty then []
    else
      search_results.filterMap (fun r =>
        match vs.get_chunk_id r.index with
        | none => none
        | some chunk_id =>
          match chunk_db chunk_id with
          | none => none
          | some chunk =>
            match file_filter with
            | some pat =>
              if pat chunk.file_path then some (mk_search_result chunk r.score) else none
            | none => some (mk_search_result chunk r.score))

/-- `search_code`: returns `(page, total)` where `total` is the filtered count
before pagination and the page is the `[offset : offset + limit]` slice.
The `check_api_readiness(db, repo_id, "search")` precondition raises before
any of this runs and is modelled separately by `check_api_readiness`. -/
def search_code {α} (sc : α → α → ℚ) (disk : VectorDisk α) (repo_id : String)
    (chunk_db : String → Option CodeChunkRow) (query : α) (limit offset : Nat)
    (threshold : ℚ) (file_filter : Option (String → Bool)) :
    List SearchResult × Nat :=
  let results := search_candidates sc disk repo_id chunk_db query limit offset
    threshold file_filter
  ((results.drop offset).take limit, results.length)

/-! ## `app/services/tutor.py` -/

/-- `TutorMessage` row (`app/models/tutor_session.py`); `references` is the
serialised citation list column; timestamps omitted — the chronological
`created_at` order is the list order of the message store. -/
structure TutorMessage where
  session_id : String
  role : String
  content : String
  references : Option String := none
deriving DecidableEq, Repr

/-- `TutorSession` row; timestamps omitted (expiry is checked by
`get_session` before `ask_question`'s body runs and is orthogonal to the
modelled claims). -/
structure TutorSession where
  id : String
  repo_id : String
  repo_context_summary : Option String := none
  rolling_conversation_summary : Option String := none
deriving DecidableEq, Repr

/-- `CodeReference` schema (`app/schemas/tutor.py`). -/
structure CodeReference where
  file : String
  symbol : Option String := none
  lines : String
  content : Option String := none
deriving DecidableEq, Repr

/-- `AskResponse` schema (`app/schemas/tutor.py`). -/
structure AskResponse where
  session_id : String
  question : String
  answer : String
  references : List CodeReference := []
  confidence : ℚ
  answered : Bool
deriving DecidableEq, Repr

/-- Shape of a successfully `json.loads`-parsed completion output: the fields
`ask_question` reads, each `none` when the key is absent (the `.get`
defaults are applied by `ask_question` itself, as in the source). -/
structure ParsedAsk where
  answer : Option String := none
  references : List CodeReference := []
  confidence : Option ℚ := none
  answered : Option Bool := none

/-- Everything `ask_question` produces: the response, the `TutorMessage` rows
it appends (in insertion order), the session's rolling summary afterwards,
and how many times the completion capability was invoked. -/
structure AskOutcome where
  response : AskResponse
  new_messages : List TutorMessage
  new_summary : Option String
  completion_calls : Nat

/-- `get_recent_messages`: newest `limit` rows, returned chronologically. -/
def get_recent_messages (msgs : List TutorMessage) (limit : Nat := 10) :
    List TutorMessage :=
  (msgs.reverse.take limit).reverse

/-- The `while count_tokens(summary) > max: summary = summary[100:]` loop of
`update_rolling_summary`, on the character list. -/
def trim_chars (budget : Nat) : List Char → List Char
  | [] => []
  | c :: rest =>
    if count_tokens (String.mk (c :: rest)) > budget then
      trim_chars budget ((c :: rest).drop 100)
    else c :: rest
termination_by l => l.length
decreasing_by
  simp only [List.length_drop, List.length_cons]
  omega

/-- Trim a summary from the front until its token estimate fits the budget. -/
def trim_to_budget (budget : Nat) (s : String) : String :=
  String.mk (trim_chars budget s.data)

/-- `update_rolling_summary`: no change while fewer than 4 recent messages
exist; otherwise digest the last 6 as `Q:`/`A:` 100-character snippets joined
by `" | "`, trimmed to the token budget. -/
def update_rolling_summary (max_conversation_tokens : Nat)
    (current_summary : Option String) (msgs : List TutorMessage) : Option String :=
  let messages := get_recent_messages msgs 10
  if messages.length < 4 then current_summary
  else
    let summary_parts := ((messages.reverse.take 6).reverse).map (fun m =>
      (if m.role = "user" then "Q: " else "A: ") ++ py_take m.content 100)
    let summary := String.intercalate " | " summary_parts
    some (trim_to_budget max_conversation_tokens summary)

/-- `TUTOR_SYSTEM_PROMPT` (braces of the embedded JSON examples written as
escapes). -/
def TUTOR_SYSTEM_PROMPT : String :=
  "You are a code tutor helping developers understand a codebase.\nYou MUST follow these rules strictly:\n\n1. ONLY answer based on the provided code context\n2. ALWAYS cite specific files and line numbers for every claim\n3. If you cannot find the answer in the provided context, say: \"This could not be found in the repository.\"\n4. Never make up or assume information not in the context\n5. Be concise but thorough\n\nFormat your response as JSON with this structure:\n\x7b\n  \"answer\": \"Your explanation here\",\n  \"references\": [\x7b\"file\": \"path/to/file.py\", \"lines\": \"10-25\", \"symbol\": \"function_name\"\x7d],\n  \"confidence\": 0.85,\n  \"answered\": true\n\x7d\n\nIf you cannot answer, use:\n\x7b\n  \"answer\": \"This could not be found in the repository.\",\n  \"references\": [],\n  \"confidence\": 0.0,\n  \"answered\": false\n\x7d"

/-- Python string truthiness `x or default` for optional strings. -/
def or_default (o : Option String) (d : String) : String :=
  match o with
  | some s => if s = "" then d else s
  | none => d

/-- `ask_question`, after `get_session`/repo-match validation (both raise
before any modelled effect) and after the `search_code` call whose outcome is
the `results` argument (the source calls it with `limit = 5` and the
configured similarity threshold, restricted to the session's repository).
`complete` is the completion capability (`generate_chat_completion`) over
`(role, content)` messages; `parse_response` is `json.loads` plus field
extraction, `none` on `JSONDecodeError`; `dumps_refs` is `json.dumps` of the
serialised references; `stored_messages` is the session's message table in
chronological order. -/
def ask_question (max_conversation_history max_conversation_tokens : Nat)
    (complete : List (String × String) → String)
    (parse_response : String → Option ParsedAsk)
    (dumps_refs : List CodeReference → String)
    (session : TutorSession) (stored_messages : List TutorMessage)
    (question : String) (results : List SearchResult) : AskOutcome :=
  if results.isEmpty then
    { response :=
        { session_id := session.id, question := question,
          answer := "This could not be found in the repository.",
          references := [], confidence := 0, answered := false },
      new_messages := [],
      new_summary := session.rolling_conversation_summary,
      completion_calls := 0 }
  else
    let code_context := String.intercalate "\n\n---\n\n" (results.map (fun r =>
      "File: " ++ r.file_path ++ " (lines " ++ toString r.start_line ++ "-" ++
        toString r.end_line ++ ")\n" ++
      "Symbol: " ++ or_default r.symbol "N/A" ++ "\n" ++
      "```" ++ (r.language.getD "") ++ "\n" ++ r.content ++ "\n```"))
    let history := get_recent_messages stored_messages 10
    let summary_msgs : List (String × String) :=
      match session.rolling_conversation_summary with
      | some s =>
        if s ≠ "" then
          [("system", "Previous conversation summary: " ++ s)]
        else []
      | none => []
    let hist_msgs := ((history.reverse.take max_conversation_history).reverse).map
      (fun m => (m.role, m.content))
    let user_message := "Code Context:\n" ++ code_context ++ "\n\nQuestion: " ++
      question ++
      "\n\nRemember: Answer ONLY based on the code context above. Cite specific files and lines."
    let messages := [("system", TUTOR_SYSTEM_PROMPT)] ++ summary_msgs ++ hist_msgs ++
      [("user", user_message)]
    let response_text := complete messages
    let parsed := parse_response response_text
    let answer := match parsed with
      | some p => p.answer.getD response_text
      | none => response_text
    let references := match parsed with
      | some p => p.references
      | none => (results.take 3).map (fun r =>
          { file := r.file_path,
            lines := toString r.start_line ++ "-" ++ toString r.end_line
            : CodeReference })
    let confidence : ℚ := match parsed with
      | some p => p.confidence.getD (1 / 2)
      | none => 1 / 2
    let answered := match parsed with
      | some p => p.answered.getD true
      | none => true
    let user_msg : TutorMessage :=
      { session_id := session.id, role := "user", content := question }
    let assistant_msg : TutorMessage :=
      { session_id := session.id, role := "assistant", content := answer,
        references := some (dumps_refs references) }
    { response :=
        { session_id := session.id, question := question, answer := answer,
          references := references, confidence := confidence,
          answered := answered },
      new_messages := [user_msg, assistant_msg],
      new_summary := update_rolling_summary max_conversation_tokens
        session.rolling_conversation_summary
        (stored_messages ++ [user_msg, assistant_msg]),
      completion_calls := 1 }

/-! ## Property checkers and concrete instances used by the theorems -/

/-- Chunk-list shape relative to a non-overlap span origin `s0` and a last
line `n`: the list is non-empty; each chunk starts at or before the start of
its own non-overlap span (`c.start_line ≤ s0`, i.e. the chunk re-includes
`s0 - c.start_line ≥ 0` overlap lines of its predecessor) but at line ≥ 1;
each non-overlap span `[s0, c.end_line]` is non-empty; the next chunk's span
starts at `c.end_line + 1`; the last chunk ends exactly at `n`. -/
def goodFrom (s0 n : Nat) : List CodeChunk → Bool
  | [] => false
  | [c] =>
    decide (c.start_line ≤ s0) && decide (1 ≤ c.start_line) &&
    decide (s0 ≤ c.end_line) && decide (c.end_line = n)
  | c :: c2 :: cs2 =>
    decide (c.start_line ≤ s0) && decide (1 ≤ c.start_line) &&
    decide (s0 ≤ c.end_line) && goodFrom (c.end_line + 1) n (c2 :: cs2)

/-- The concatenation of the chunks' non-overlap line spans, starting the
first span at `s0`. -/
def spanLines (s0 : Nat) : List CodeChunk → List Nat
  | [] => []
  | c :: cs => List.range' s0 (c.end_line + 1 - s0) ++ spanLines (c.end_line + 1) cs

/-- Adjacent-chunk continuity: each chunk after the first starts at
`prev.end_line + 1 - ov` for some overlap count `ov ≥ 0` — that is,
`next.start_line ≤ prev.end_line + 1`, the claim's
`next.start_line = prev.end_line - overlap_lines + 1`. -/
def chunk_chain : List CodeChunk → Bool
  | [] => true
  | [_] => true
  | c :: c2 :: cs => decide (c2.start_line ≤ c.end_line + 1) && chunk_chain (c2 :: cs)

/-- Whether input line `l` lies in some produced chunk's line range. -/
def line_covered (cs : List CodeChunk) (l : Nat) : Bool :=
  cs.any (fun c => decide (c.start_line ≤ l) && decide (l ≤ c.end_line))

/-- The repository invariant of the data model: `error_message` is non-empty
only when `status = FAILED`. -/
def err_invariant (r : Repository) : Bool :=
  match r.error_message with
  | none => true
  | some s => decide (s = "") || decide (r.status = RepoStatus.FAILED)

/-- Number of index entries whose score passes the threshold: the result size
of a search whose `top_k` equals the whole index size. -/
def vs_qualifying {α} (sc : α → α → ℚ) (vs : VectorStore α) (query : α)
    (threshold : ℚ) : Nat :=
  (vs.search sc query ((vs.index.getD []).length) threshold).length

/-- Threshold-passing entry count of the persisted index a `search_code` call
against `repo_id` would load. -/
def qualifying_count {α} (sc : α → α → ℚ) (disk : VectorDisk α) (repo_id : String)
    (query : α) (threshold : ℚ) : Nat :=
  vs_qualifying sc (VectorStore.load { repo_id := repo_id } disk).1 query threshold

/-- Concrete repository in the initial state (used by witnesses). -/
def repo_w : Repository :=
  { id := "r1", repo_url := "https://example.com/o/n", name := "n", owner := "o" }

/-- Concrete repository already failed with a recorded message. -/
def repo_failed : Repository :=
  { repo_w with status := RepoStatus.FAILED, error_message := some "boom" }

/-- Concrete running job that has already reported progress 100. -/
def job_c6 : Job :=
  { id := "j1", repo_id := "r1", type := JobType.ingest, status := JobStatus.running,
    progress := 100 }

/-- Python file whose symbol extraction drops the module-level import lines:
lines 1-5 precede the first `def` and end up in no chunk. -/
def c5_content : String :=
  "import os\nimport sys\nimport json\nimport time\n\ndef f():\n    return 1\n"

/-- Plain-text file (sliding-window branch) used by the C5 witness. -/
def c5w_content : String :=
  "alpha beta gamma delta\nepsilon zeta eta theta iota kappa\nlambda mu"

/-- Score function of the C3/C8 instances: the stored payload *is* the score
(an abstract stand-in for the normalised inner product). -/
def c3_sc : ℚ → ℚ → ℚ := fun _query v => v

/-- Sixty stored vectors with pairwise distinct scores `60, 59, …, 1`. -/
def c3_vecs : List ℚ :=
  (List.range 60).map (fun i => ((60 - i : Nat) : ℚ))

/-- Sixty distinct chunk ids, one per slot. -/
def c3_ids : List String :=
  (List.range 60).map (fun i => "c" ++ toString i)

/-- The populated store of the C3 counterexample. -/
def c3_store : VectorStore ℚ :=
  { repo_id := "r1", index := some c3_vecs, id_map := c3_ids }

/-- Its persisted artifacts. -/
def c3_disk : VectorDisk ℚ :=
  c3_store.save {}

/-- Chunk-row lookup: every id resolves to a row (same path, no filter
losses). -/
def c3_db : String → Option CodeChunkRow := fun s =>
  some { id := s, repo_id := "r1", file_path := "src/m.py", start_line := 1,
         end_line := 2, content := "pass" }

/-- Small store for the C8 witness. -/
def c8_store : VectorStore ℚ :=
  { repo_id := "r2", index := some [(3 : ℚ), 7, 5], id_map := ["a", "b", "c"] }

/-- Point lookup returning `repo_failed` for every id (C9 witness). -/
def db_w : String → Option Repository := fun _ => some repo_failed

/-- `repo_w` after a valid `CREATED → FAILED` transition recording a message. -/
def c7_failed : Repository :=
  (transition_status repo_w RepoStatus.FAILED (some "boom")).1

/-- `c7_failed` after the valid `FAILED → CREATED` retry re-entry. -/
def c7_retry : Repository :=
  (transition_status c7_failed RepoStatus.CREATED none).1

/-! ## Theorems -/

/-- C1: for every repository and target status, a (current, target) pair in
the transition table makes `transition_status` succeed with the repository's
status set to the target; a pair outside the table makes it fail with
`InvalidTransition(current, target)` and return the repository record —
status and error message — unchanged. -/
theorem transition_status_follows_table (repo : Repository) (t : RepoStatus)
    (msg : Option String) :
    (t ∈ VALID_TRANSITIONS repo.status →
      (transition_status repo t msg).2 = none ∧
      (transition_status repo t msg).1.status = t) ∧
    (t ∉ VALID_TRANSITIONS repo.status →
      (transition_status repo t msg).2 =
        some (LifecycleError.invalidTransition repo.status t) ∧
      (transition_status repo t msg).1 = repo) := by
  constructor
  · intro h
    unfold transition_status Repository.can_transition_to
    rw [if_pos (by simpa using h)]
    refine ⟨rfl, ?_⟩
    split <;> rfl
  · intro h
    unfold transition_status Repository.can_transition_to
    rw [if_neg (by simpa using h)]
    exact ⟨rfl, rfl⟩

/-- Witness for C1: from `CREATED`, the valid target `CLONED` succeeds and
the invalid target `INDEXED` fails leaving the record unchanged. -/
theorem transition_status_follows_table_witness :
    ((transition_status repo_w RepoStatus.CLONED none).2 = none ∧
      (transition_status repo_w RepoStatus.CLONED none).1.status = RepoStatus.CLONED) ∧
    ((transition_status repo_w RepoStatus.INDEXED none).2 =
        some (LifecycleError.invalidTransition repo_w.status RepoStatus.INDEXED) ∧
      (transition_status repo_w RepoStatus.INDEXED none).1 = repo_w) :=
  ⟨(transition_status_follows_table repo_w RepoStatus.CLONED none).1 (by decide),
   (transition_status_follows_table repo_w RepoStatus.INDEXED none).2 (by decide)⟩

/-- C2: when the restricted search returns zero qualifying results,
`ask_question` answers with the fixed apology text, no references,
confidence 0, `answered = false`, and never invokes the completion
capability. -/
theorem ask_question_zero_results (mh mt : Nat)
    (complete : List (String × String) → String)
    (parse_response : String → Option ParsedAsk)
    (dumps_refs : List CodeReference → String)
    (session : TutorSession) (stored : List TutorMessage) (question : String) :
    (ask_question mh mt complete parse_response dumps_refs session stored
        question []).response.answered = false ∧
    (ask_question mh mt complete parse_response dumps_refs session stored
        question []).response.confidence = 0 ∧
    (ask_question mh mt complete parse_response dumps_refs session stored
        question []).response.references = [] ∧
    (ask_question mh mt complete parse_response dumps_refs session stored
        question []).response.answer = "This could not be found in the repository." ∧
    (ask_question mh mt complete parse_response dumps_refs session stored
        question []).completion_calls = 0 :=
  ⟨rfl, rfl, rfl, rfl, rfl⟩

/-- C10: on the zero-result path, `ask_question` writes no `TutorMessage`
row and leaves the session's rolling summary unchanged. -/
theorem ask_question_zero_results_frame (mh mt : Nat)
    (complete : List (String × String) → String)
    (parse_response : String → Option ParsedAsk)
    (dumps_refs : List CodeReference → String)
    (session : TutorSession) (stored : List TutorMessage) (question : String) :
    (ask_question mh mt complete parse_response dumps_refs session stored
        question []).new_messages = [] ∧
    (ask_question mh mt complete parse_response dumps_refs session stored
        question []).new_summary = session.rolling_conversation_summary :=
  ⟨rfl, rfl⟩

/-- C6 counterexample: a running job whose progress is already the terminal
value 100 regresses to 0 on `update_progress(job, 0)` — the code has no
monotonicity guard, contradicting the claim. -/
theorem update_progress_regresses :
    job_c6.progress = 100 ∧ (update_progress job_c6 0).progress = 0 := by
  decide

/-- C6 amended: `update_progress` stores exactly `min(max(value, 0), 100)` —
always within `[0, 100]`, touching nothing else — regardless of the previous
progress; in particular a smaller value overwrites a previously stored 100. -/
theorem update_progress_clamps (job : Job) (p : Int) :
    (update_progress job p).progress = min (max p 0) 100 ∧
    0 ≤ (update_progress job p).progress ∧
    (update_progress job p).progress ≤ 100 ∧
    (update_progress job p).status = job.status ∧
    (update_progress job p).error_message = job.error_message := by
  refine ⟨rfl, ?_, ?_, rfl, rfl⟩ <;> (simp only [update_progress]; omega)

/-- C7 counterexample: starting from a record satisfying the invariant, two
valid `transition_status` steps (`CREATED → FAILED` with message "boom", then
the `FAILED → CREATED` retry re-entry) reach a record with status `CREATED`
and the non-empty error message still in place — `transition_status` does not
clear the message on the retry transition. -/
theorem retry_keeps_error_message :
    err_invariant repo_w = true ∧
    (transition_status repo_w RepoStatus.FAILED (some "boom")).2 = none ∧
    (transition_status c7_failed RepoStatus.CREATED none).2 = none ∧
    c7_retry.status = RepoStatus.CREATED ∧
    c7_retry.error_message = some "boom" ∧
    err_invariant c7_retry = false := by
  decide

/-- C7 amended: every `transition_status` step whose target is not `CREATED`
preserves the invariant "`error_message` non-empty only when `FAILED`" (the
`FAILED → CREATED` retry re-entry is the sole exception: it leaves the failure
message in place); the forced-retry reset in `ingest_repository` restores the
invariant by clearing the message explicitly. -/
theorem transition_preserves_err_invariant :
    (∀ (repo : Repository) (t : RepoStatus) (msg : Option String),
      err_invariant repo = true → t ≠ RepoStatus.CREATED →
      err_invariant (transition_status repo t msg).1 = true) ∧
    (∀ repo : Repository, err_invariant (ingest_force_reset repo) = true) := by
  constructor
  · intro repo t msg hinv hne
    by_cases h1 : repo.can_transition_to t
    · by_cases h2 : t = RepoStatus.FAILED ∧ msgTruthy msg
      · obtain ⟨ht, hm⟩ := h2
        subst ht
        cases msg with
        | none => simp [msgTruthy] at hm
        | some s =>
          simp [transition_status, h1, hm, err_invariant, msgTruthy]
          split_ifs with hs
          · simp [msgTruthy, hs] at hm
          · simp
      · simp only [transition_status, h1, if_true, if_neg h2]
        cases hmsg : repo.error_message with
        | none => simp [err_invariant, hmsg]
        | some s =>
          simp only [err_invariant, hmsg, Bool.or_eq_true, decide_eq_true_eq]
          have hs : s = "" ∨ repo.status = RepoStatus.FAILED := by
            simpa [err_invariant, hmsg] using hinv
          rcases hs with hs | hs
          · exact Or.inl hs
          · exfalso
            have hmem : t ∈ VALID_TRANSITIONS repo.status := by
              simpa [Repository.can_transition_to] using h1
            rw [hs] at hmem
            simp only [VALID_TRANSITIONS, List.mem_singleton] at hmem
            exact hne hmem
    · simp only [transition_status, h1, if_false]
      exact hinv
  · intro repo
    simp [ingest_force_reset, err_invariant]

/-- Witness for C7 (amended): a valid non-retry transition from an
invariant-satisfying record preserves the invariant, and the forced reset of
a failed record restores it. -/
theorem transition_preserves_err_invariant_witness :
    err_invariant repo_w = true ∧ RepoStatus.CLONED ≠ RepoStatus.CREATED ∧
    err_invariant (transition_status repo_w RepoStatus.CLONED none).1 = true ∧
    err_invariant (ingest_force_reset repo_failed) = true :=
  ⟨by decide, by decide,
   transition_preserves_err_invariant.1 repo_w RepoStatus.CLONED none
     (by decide) (by decide),
   transition_preserves_err_invariant.2 repo_failed⟩

/-- C8: after `save()` and a `load()` into a fresh instance for the same
repository, search results for any fixed query/`top_k`/`threshold` and the
slot→chunk-id mapping agree with the original populated store. -/
theorem vector_store_roundtrip {α : Type} (sc : α → α → ℚ) (vs : VectorStore α)
    (disk : VectorDisk α) (q : α) (top_k : Nat) (threshold : ℚ) (slot : Nat)
    (vecs : List α) (hidx : vs.index = some vecs) :
    (VectorStore.load { repo_id := vs.repo_id } (vs.save disk)).2 = true ∧
    (VectorStore.load { repo_id := vs.repo_id } (vs.save disk)).1.search sc q
        top_k threshold = vs.search sc q top_k threshold ∧
    (VectorStore.load { repo_id := vs.repo_id } (vs.save disk)).1.get_chunk_id
        slot = vs.get_chunk_id slot := by
  have hsave : vs.save disk =
      { index_files := (vs.repo_id, vecs) :: disk.index_files,
        map_files := (vs.repo_id, vs.id_map) :: disk.map_files } := by
    unfold VectorStore.save
    rw [hidx]
  have hload : VectorStore.load { repo_id := vs.repo_id } (vs.save disk) =
      ({ repo_id := vs.repo_id, index := some vecs, id_map := vs.id_map }, true) := by
    rw [hsave]
    unfold VectorStore.load
    simp [List.lookup]
  refine ⟨by rw [hload], ?_, ?_⟩
  · rw [hload]
    unfold VectorStore.search
    rw [hidx]
  · rw [hload]
    unfold VectorStore.get_chunk_id
    rfl

/-- Witness for C8 at a concrete populated store. -/
theorem vector_store_roundtrip_witness :
    (VectorStore.load { repo_id := c8_store.repo_id } (c8_store.save {})).2 = true ∧
    (VectorStore.load { repo_id := c8_store.repo_id } (c8_store.save {})).1.search
        c3_sc 0 10 0 = c8_store.search c3_sc 0 10 0 ∧
    (VectorStore.load { repo_id := c8_store.repo_id } (c8_store.save {})).1.get_chunk_id
        1 = c8_store.get_chunk_id 1 :=
  vector_store_roundtrip c3_sc c8_store {} 0 10 0 1 [(3 : ℚ), 7, 5] rfl

/-- C9: an operation name absent from `API_STATE_REQUIREMENTS` passes
`check_api_readiness` for every repository state — the `required is None`
early return fires before the `FAILED` check and the state floor. -/
theorem check_api_readiness_unknown_operation (db : String → Option Repository)
    (repo_id op : String) (repo : Repository)
    (hop : API_STATE_REQUIREMENTS.lookup op = none)
    (hdb : db repo_id = some repo) :
    check_api_readiness db repo_id op = .ok repo ∧
    repo.check_api_readiness op = (true, none) := by
  have h2 : repo.check_api_readiness op = (true, none) := by
    unfold Repository.check_api_readiness
    rw [hop]
  refine ⟨?_, h2⟩
  unfold check_api_readiness
  rw [hdb]
  simp [h2]

/-- Witness for C9: the unknown operation name "status" passes readiness even
for a repository in `FAILED` state. -/
theorem check_api_readiness_unknown_operation_witness :
    check_api_readiness db_w "r1" "status" = .ok repo_failed ∧
    repo_failed.check_api_readiness "status" = (true, none) :=
  check_api_readiness_unknown_operation db_w "r1" "status" repo_failed
    (by decide) rfl

/-- The overlap never keeps more lines than the emitted chunk had. -/
theorem overlap_take_fst_length_le (ot : Nat) :
    ∀ (l : List String) (acc : Nat), (overlap_take ot l acc).1.length ≤ l.length := by
  intro l
  induction l with
  | nil => intro acc; simp [overlap_take]
  | cons x xs ih =>
    intro acc
    by_cases h : acc + count_tokens x > ot
    · simp [overlap_take, h]
    · have := ih (acc + count_tokens x)
      simp only [overlap_take, if_neg h, List.length_append, List.length_cons,
        List.length_singleton, List.length_nil]
      omega

/-- `split_newlines` always yields at least one piece. -/
theorem split_newlines_aux_ne_nil : ∀ (l acc : List Char), split_newlines_aux l acc ≠ [] := by
  intro l
  induction l with
  | nil => intro acc; simp [split_newlines_aux]
  | cons c rest ih =>
    intro acc
    unfold split_newlines_aux
    split
    · simp
    · exact ih (c :: acc)

/-- `goodFrom` only constrains the span origin through the head chunk, so the
origin can be moved anywhere between the head's start and end lines. -/
theorem goodFrom_retarget (c : CodeChunk) (cs : List CodeChunk) (s0 s1 n : Nat)
    (h : goodFrom s0 n (c :: cs) = true) (h1 : c.start_line ≤ s1)
    (h2 : s1 ≤ c.end_line) : goodFrom s1 n (c :: cs) = true := by
  cases cs with
  | nil =>
    simp only [goodFrom, Bool.and_eq_true, decide_eq_true_eq] at h ⊢
    exact ⟨⟨⟨h1, h.1.1.2⟩, h2⟩, h.2⟩
  | cons c2 cs2 =>
    simp only [goodFrom, Bool.and_eq_true, decide_eq_true_eq] at h ⊢
    exact ⟨⟨⟨h1, h.1.1.2⟩, h2⟩, h.2⟩

/-- A good chunk list starts its spans at or before the last line. -/
theorem goodFrom_le : ∀ (cs : List CodeChunk) (s0 n : Nat),
    goodFrom s0 n cs = true → s0 ≤ n := by
  intro cs
  induction cs with
  | nil => intro s0 n h; simp [goodFrom] at h
  | cons c cs ih =>
    intro s0 n h
    cases cs with
    | nil =>
      simp only [goodFrom, Bool.and_eq_true, decide_eq_true_eq] at h
      omega
    | cons c2 cs2 =>
      simp only [goodFrom, Bool.and_eq_true, decide_eq_true_eq] at h
      have := ih (c.end_line + 1) n h.2
      omega

/-- The non-overlap spans of a good chunk list concatenate to exactly the
line range `[s0, n]`. -/
theorem goodFrom_spanLines : ∀ (cs : List CodeChunk) (s0 n : Nat),
    goodFrom s0 n cs = true → spanLines s0 cs = List.range' s0 (n + 1 - s0) := by
  intro cs
  induction cs with
  | nil => intro s0 n h; simp [goodFrom] at h
  | cons c cs ih =>
    intro s0 n h
    cases cs with
    | nil =>
      simp only [goodFrom, Bool.and_eq_true, decide_eq_true_eq] at h
      simp [spanLines, h.2]
    | cons c2 cs2 =>
      simp only [goodFrom, Bool.and_eq_true, decide_eq_true_eq] at h
      have hle : c.end_line + 1 ≤ n := goodFrom_le _ _ _ h.2
      have hrec := ih (c.end_line + 1) n h.2
      have harv := List.range'_append s0 (c.end_line + 1 - s0) (n + 1 - (c.end_line + 1)) 1
      rw [show s0 + 1 * (c.end_line + 1 - s0) = c.end_line + 1 from by omega] at harv
      rw [show spanLines s0 (c :: c2 :: cs2) =
            List.range' s0 (c.end_line + 1 - s0) ++ spanLines (c.end_line + 1) (c2 :: cs2)
          from rfl,
        hrec, harv]
      congr 1
      omega

/-- A good chunk list satisfies the adjacent-start continuity property. -/
theorem goodFrom_chunk_chain : ∀ (cs : List CodeChunk) (s0 n : Nat),
    goodFrom s0 n cs = true → chunk_chain cs = true := by
  intro cs
  induction cs with
  | nil => intro s0 n _; rfl
  | cons c cs ih =>
    intro s0 n h
    cases cs with
    | nil => rfl
    | cons c2 cs2 =>
      simp only [goodFrom, Bool.and_eq_true, decide_eq_true_eq] at h
      have hchain := ih (c.end_line + 1) n h.2
      have hstart : c2.start_line ≤ c.end_line + 1 := by
        cases cs2 with
        | nil =>
          simp only [goodFrom, Bool.and_eq_true, decide_eq_true_eq] at h
          exact h.2.1.1.1
        | cons c3 cs3 =>
          simp only [goodFrom, Bool.and_eq_true, decide_eq_true_eq] at h
          exact h.2.1.1.1
      simp only [chunk_chain, Bool.and_eq_true, decide_eq_true_eq]
      exact ⟨hstart, hchain⟩

/-- Every line of `[s0, n]` lies in some chunk of a good chunk list. -/
theorem goodFrom_covers : ∀ (cs : List CodeChunk) (s0 n l : Nat),
    goodFrom s0 n cs = true → s0 ≤ l → l ≤ n → line_covered cs l = true := by
  intro cs
  induction cs with
  | nil => intro s0 n l h _ _; simp [goodFrom] at h
  | cons c cs ih =>
    intro s0 n l h hl1 hl2
    by_cases hcl : l ≤ c.end_line
    · have hcs : c.start_line ≤ s0 := by
        cases cs with
        | nil =>
          simp only [goodFrom, Bool.and_eq_true, decide_eq_true_eq] at h
          exact h.1.1.1
        | cons c2 cs2 =>
          simp only [goodFrom, Bool.and_eq_true, decide_eq_true_eq] at h
          exact h.1.1.1
      simp only [line_covered, List.any_cons, Bool.or_eq_true, Bool.and_eq_true,
        decide_eq_true_eq]
      exact Or.inl ⟨by omega, hcl⟩
    · cases cs with
      | nil =>
        simp only [goodFrom, Bool.and_eq_true, decide_eq_true_eq] at h
        omega
      | cons c2 cs2 =>
        simp only [goodFrom, Bool.and_eq_true, decide_eq_true_eq] at h
        have := ih (c.end_line + 1) n l h.2 (by omega) hl2
        simp only [line_covered, List.any_cons, Bool.or_eq_true]
        exact Or.inr (by simpa [line_covered] using this)

/-- Invariant of the `sliding_window_chunk` loop: from any reachable state the
produced chunks form a non-empty good list whose first chunk starts at the
current window start and ends no earlier than the last consumed line. -/
theorem sliding_aux_spec (fp : String) (lang : Option String) (mt ot : Nat) :
    ∀ (rem : List String) (i : Nat) (cur : List String) (start tok : Nat),
      1 ≤ start → start + cur.length = i → (cur = [] → rem ≠ []) →
      ∃ c cs, sliding_aux fp lang mt ot rem i cur start tok = c :: cs ∧
        c.start_line = start ∧ i - 1 ≤ c.end_line ∧
        goodFrom start (i + rem.length - 1) (c :: cs) = true := by
  intro rem
  induction rem with
  | nil =>
    intro i cur start tok h1 h2 h3
    match hc : cur with
    | [] => exact absurd rfl (h3 rfl)
    | a :: as =>
      have hres : sliding_aux fp lang mt ot [] i (a :: as) start tok =
          [{ file_path := fp, start_line := start, end_line := i - 1,
             content := String.intercalate "\n" (a :: as), language := lang,
             token_count := some tok }] := by
        simp [sliding_aux]
      refine ⟨_, [], hres, rfl, le_refl _, ?_⟩
      subst hc
      simp only [goodFrom, Bool.and_eq_true, decide_eq_true_eq, List.length_nil,
        List.length_cons] at h2 ⊢
      omega
  | cons line rest ih =>
    intro i cur start tok h1 h2 h3
    by_cases hcond : tok + count_tokens line > mt ∧ cur ≠ []
    · have hcl : 1 ≤ cur.length := List.length_pos.mpr hcond.2
      have hov : (overlap_take ot cur.reverse 0).1.length ≤ cur.length := by
        have := overlap_take_fst_length_le ot cur.reverse 0
        simpa using this
      obtain ⟨c, cs, heq, hstart, hend, hgood⟩ :=
        ih (i + 1) ((overlap_take ot cur.reverse 0).1 ++ [line])
          (i - (overlap_take ot cur.reverse 0).1.length)
          ((overlap_take ot cur.reverse 0).2 + count_tokens line)
          (by omega) (by simp only [List.length_append, List.length_singleton]; omega)
          (by simp)
      have hres : sliding_aux fp lang mt ot (line :: rest) i cur start tok =
          { file_path := fp, start_line := start, end_line := i - 1,
            content := String.intercalate "\n" cur, language := lang,
            token_count := some tok } :: c :: cs := by
        simp only [sliding_aux]
        rw [if_pos hcond, heq]
      refine ⟨_, c :: cs, hres, rfl, le_refl _, ?_⟩
      have hn : i + (rest.length + 1) - 1 = (i + 1) + rest.length - 1 := by omega
      simp only [List.length_cons, hn]
      have hretarget : goodFrom i ((i + 1) + rest.length - 1) (c :: cs) = true := by
        refine goodFrom_retarget c cs _ i _ hgood ?_ ?_
        · omega
        · omega
      simp only [goodFrom, Bool.and_eq_true, decide_eq_true_eq]
      refine ⟨⟨⟨le_refl _, h1⟩, by omega⟩, ?_⟩
      rw [show i - 1 + 1 = i from by omega]
      exact hretarget
    · obtain ⟨c, cs, heq, hstart, hend, hgood⟩ :=
        ih (i + 1) (cur ++ [line]) start (tok + count_tokens line) h1
          (by simp only [List.length_append, List.length_singleton]; omega)
          (by simp)
      have hres : sliding_aux fp lang mt ot (line :: rest) i cur start tok = c :: cs := by
        simp only [sliding_aux]
        rw [if_neg hcond]
        exact heq
      refine ⟨c, cs, hres, hstart, by omega, ?_⟩
      have hn : i + (rest.length + 1) - 1 = (i + 1) + rest.length - 1 := by omega
      simp only [List.length_cons, hn]
      exact hgood

/-- C4: for every non-empty input text, the sliding-window chunks are
non-empty; each chunk after the first starts at
`prev.end_line - overlap_lines + 1` for its (non-negative) overlap count
`overlap_lines = prev.end_line + 1 - next.start_line` (`chunk_chain`); and the
chunks' non-overlap spans concatenate to exactly the lines `1 … len(lines)`
(`spanLines … = range'`), i.e. the union of the chunk ranges covers every
input line and each line lies in exactly one chunk's non-overlap span
(`goodFrom` additionally places every span inside its chunk's range). -/
theorem sliding_window_total_coverage (content fp : String) (lang : Option String)
    (_hne : content ≠ "") :
    sliding_window_chunk content fp lang ≠ [] ∧
    goodFrom 1 (split_newlines content).length
      (sliding_window_chunk content fp lang) = true ∧
    spanLines 1 (sliding_window_chunk content fp lang) =
      List.range' 1 (split_newlines content).length ∧
    chunk_chain (sliding_window_chunk content fp lang) = true := by
  have hlines : split_newlines content ≠ [] := split_newlines_aux_ne_nil _ _
  have hlen : 1 ≤ (split_newlines content).length := List.length_pos.mpr hlines
  obtain ⟨c, cs, heq, hstart, hend, hgood⟩ :=
    sliding_aux_spec fp lang 1500 200 (split_newlines content) 1 [] 1 0
      (le_refl 1) (by simp) (fun _ => hlines)
  have hres : sliding_window_chunk content fp lang = c :: cs := by
    unfold sliding_window_chunk
    rw [if_neg (by simpa [List.isEmpty_iff] using hlines)]
    exact heq
  have hn : 1 + (split_newlines content).length - 1 = (split_newlines content).length := by
    omega
  rw [hn] at hgood
  refine ⟨by simp [hres], by rw [hres]; exact hgood, ?_, ?_⟩
  · rw [hres, goodFrom_spanLines (c :: cs) 1 (split_newlines content).length hgood]
    congr 1
  · rw [hres]
    exact goodFrom_chunk_chain (c :: cs) 1 (split_newlines content).length hgood

/-- Every line of the input is covered by some sliding-window chunk. -/
theorem sliding_window_covers (content fp : String) (lang : Option String)
    (l : Nat) (hl1 : 1 ≤ l) (hl2 : l ≤ (split_newlines content).length) :
    line_covered (sliding_window_chunk content fp lang) l = true := by
  have hlines : split_newlines content ≠ [] := split_newlines_aux_ne_nil _ _
  obtain ⟨c, cs, heq, hstart, hend, hgood⟩ :=
    sliding_aux_spec fp lang 1500 200 (split_newlines content) 1 [] 1 0
      (le_refl 1) (by simp) (fun _ => hlines)
  have hres : sliding_window_chunk content fp lang = c :: cs := by
    unfold sliding_window_chunk
    rw [if_neg (by simpa [List.isEmpty_iff] using hlines)]
    exact heq
  have hn : 1 + (split_newlines content).length - 1 = (split_newlines content).length := by
    have : 1 ≤ (split_newlines content).length := List.length_pos.mpr hlines
    omega
  rw [hn] at hgood
  rw [hres]
  exact goodFrom_covers (c :: cs) 1 (split_newlines content).length l hgood hl1 hl2

/-- C5 counterexample: a Python file (not skipped: its stripped length is 67)
whose first line `"import os"` is non-empty, yet under the symbol-extraction
strategy `chunk_file` produces only the chunk for `def f` (lines 6-8): line 1
is covered by no produced chunk. -/
theorem chunk_file_drops_module_lines :
    chunk_file_content c5_content "a.py" (some "python") ≠ [] ∧
    50 ≤ (py_strip c5_content).length ∧
    (split_newlines c5_content).headD "" = "import os" ∧
    line_covered (chunk_file_content c5_content "a.py" (some "python")) 1 = false := by
  decide

/-- C5 amended: for every file the Chunker does not skip, every input line is
covered by some produced chunk *when the sliding-window strategy applies*
(non-Python language, or Python whose symbol extraction yields nothing); the
symbol-extraction strategy covers only symbol regions and may drop
module-level lines. -/
theorem chunk_file_sliding_covers (content relative_path : String)
    (language : Option String) (l : Nat) (hne : content ≠ "")
    (h50 : ¬ (py_strip content).length < 50)
    (hbranch : language ≠ some "python" ∨
      extract_python_symbols content relative_path = [])
    (hl1 : 1 ≤ l) (hl2 : l ≤ (split_newlines content).length) :
    line_covered (chunk_file_content content relative_path language) l = true := by
  unfold chunk_file_content
  rw [if_neg hne, if_neg h50]
  by_cases hpy : language = some "python"
  · rcases hbranch with hb | hb
    · exact absurd hpy hb
    · rw [if_pos hpy]
      simp only [hb]
      rw [if_neg (by simp)]
      exact sliding_window_covers content relative_path language l hl1 hl2
  · rw [if_neg hpy]
    exact sliding_window_covers content relative_path language l hl1 hl2

/-- Witness for C5 (amended) on a concrete plain-text file and line 2. -/
theorem chunk_file_sliding_covers_witness :
    c5w_content ≠ "" ∧ ¬ (py_strip c5w_content).length < 50 ∧
    ((none : Option String) ≠ some "python" ∨
      extract_python_symbols c5w_content "notes.txt" = []) ∧
    (1 : Nat) ≤ 2 ∧ 2 ≤ (split_newlines c5w_content).length ∧
    line_covered (chunk_file_content c5w_content "notes.txt" none) 2 = true :=
  ⟨by decide, by decide, Or.inl (by decide), by decide, by decide,
   chunk_file_sliding_covers c5w_content "notes.txt" none 2 (by decide)
     (by decide) (Or.inl (by decide)) (by decide) (by decide)⟩

/-- Membership through `insert_scored`. -/
theorem mem_insert_scored (x y : VSearchResult) :
    ∀ (l : List VSearchResult), y ∈ insert_scored x l ↔ y = x ∨ y ∈ l := by
  intro l
  induction l with
  | nil => simp [insert_scored]
  | cons z zs ih =>
    by_cases h : x.score > z.score
    · simp only [insert_scored, if_pos h, List.mem_cons]
    · simp only [insert_scored, if_neg h, List.mem_cons, ih]
      tauto

/-- Inserting into a score-descending list keeps it score-descending. -/
theorem pairwise_insert_scored (x : VSearchResult) :
    ∀ (l : List VSearchResult),
      List.Pairwise (fun a b => b.score ≤ a.score) l →
      List.Pairwise (fun a b => b.score ≤ a.score) (insert_scored x l) := by
  intro l
  induction l with
  | nil => intro _; simp [insert_scored]
  | cons z zs ih =>
    intro hp
    rcases List.pairwise_cons.mp hp with ⟨hz, hzs⟩
    by_cases h : x.score > z.score
    · rw [insert_scored, if_pos h]
      refine List.pairwise_cons.mpr ⟨?_, hp⟩
      intro b hb
      rcases List.mem_cons.mp hb with rfl | hb
      · exact le_of_lt h
      · exact le_trans (hz b hb) (le_of_lt h)
    · rw [insert_scored, if_neg h]
      refine List.pairwise_cons.mpr ⟨?_, ih hzs⟩
      intro b hb
      rcases (mem_insert_scored x b zs).mp hb with rfl | hb
      · exact le_of_not_lt h
      · exact hz b hb

/-- `sort_scored` output is score-descending. -/
theorem pairwise_sort_scored :
    ∀ (l : List VSearchResult),
      List.Pairwise (fun a b => b.score ≤ a.score) (sort_scored l) := by
  intro l
  induction l with
  | nil => simp [sort_scored]
  | cons x xs ih => exact pairwise_insert_scored x _ ih

/-- `insert_scored` adds one element. -/
theorem length_insert_scored (x : VSearchResult) :
    ∀ (l : List VSearchResult), (insert_scored x l).length = l.length + 1 := by
  intro l
  induction l with
  | nil => rfl
  | cons z zs ih =>
    by_cases h : x.score > z.score
    · simp [insert_scored, if_pos h]
    · simp [insert_scored, if_neg h, ih]

/-- `sort_scored` preserves length. -/
theorem length_sort_scored :
    ∀ (l : List VSearchResult), (sort_scored l).length = l.length := by
  intro l
  induction l with
  | nil => rfl
  | cons x xs ih => simp [sort_scored, length_insert_scored, ih]

/-- On a score-descending list, filtering by a score-monotone predicate is the
same as taking the leading run. -/
theorem sorted_filter_eq_takeWhile (p : VSearchResult → Bool)
    (hmono : ∀ a b : VSearchResult, b.score ≤ a.score → p a = false → p b = false) :
    ∀ (l : List VSearchResult),
      List.Pairwise (fun a b => b.score ≤ a.score) l →
      l.filter p = l.takeWhile p := by
  intro l
  induction l with
  | nil => intro _; rfl
  | cons x xs ih =>
    intro hp
    rcases List.pairwise_cons.mp hp with ⟨hx, hxs⟩
    cases hpx : p x with
    | true => simp [List.filter_cons, List.takeWhile_cons, hpx, ih hxs]
    | false =>
      have hnil : List.filter p xs = [] := by
        rw [List.filter_eq_nil_iff]
        intro a ha
        simp [hmono x a (hx a ha) hpx]
      simp [List.filter_cons, List.takeWhile_cons, hpx, hnil]

/-- `takeWhile` commutes with `take`. -/
theorem takeWhile_take_comm {β : Type} (p : β → Bool) :
    ∀ (l : List β) (m : Nat), (l.take m).takeWhile p = (l.takeWhile p).take m := by
  intro l
  induction l with
  | nil => intro m; simp
  | cons x xs ih =>
    intro m
    cases m with
    | zero => simp
    | succ m =>
      cases hpx : p x with
      | true => simp [List.take_succ_cons, List.takeWhile_cons, hpx, ih m]
      | false => simp [List.take_succ_cons, List.takeWhile_cons, hpx]

/-- Truncating a score-descending list after its threshold-passing run does
not change the filtered result. -/
theorem sorted_take_filter (p : VSearchResult → Bool)
    (hmono : ∀ a b : VSearchResult, b.score ≤ a.score → p a = false → p b = false)
    (l : List VSearchResult)
    (hp : List.Pairwise (fun a b => b.score ≤ a.score) l) (m : Nat)
    (hm : (l.filter p).length ≤ m) :
    (l.take m).filter p = l.filter p := by
  have hsub : List.Pairwise (fun a b => b.score ≤ a.score) (l.take m) :=
    hp.sublist (List.take_sublist m l)
  rw [sorted_filter_eq_takeWhile p hmono _ hsub, takeWhile_take_comm,
    ← sorted_filter_eq_takeWhile p hmono l hp]
  exact List.take_of_length_le hm

/-- A `top_k` at least the number of threshold-passing entries retrieves them
all: the search result no longer depends on `top_k`. -/
theorem search_top_k_stable {α : Type} (sc : α → α → ℚ) (vs : VectorStore α)
    (q : α) (t : ℚ) (k : Nat) (hk : vs_qualifying sc vs q t ≤ k) :
    vs.search sc q k t = vs.search sc q ((vs.index.getD []).length) t := by
  obtain ⟨rid, idx, idmap⟩ := vs
  cases idx with
  | none => simp [VectorStore.search, vs_qualifying]
  | some vecs =>
    by_cases h0 : vecs.length = 0
    · simp [VectorStore.search, h0]
    · unfold vs_qualifying VectorStore.search at hk
      simp only [Option.getD_some, if_neg h0] at hk
      unfold VectorStore.search
      simp only [Option.getD_some, if_neg h0]
      have hmono : ∀ a b : VSearchResult, b.score ≤ a.score →
          (decide (a.score ≥ t) : Bool) = false →
          (decide (b.score ≥ t) : Bool) = false := by
        intro a b hab ha
        simp only [decide_eq_false_iff_not, ge_iff_le, not_le] at ha ⊢
        exact lt_of_le_of_lt hab ha
      have hlenr : (sort_scored (vecs.enum.map
          (fun p => VSearchResult.mk p.1 (sc q p.2)))).length = vecs.length := by
        rw [length_sort_scored]
        simp
      have hpair := pairwise_sort_scored
        (vecs.enum.map (fun p => VSearchResult.mk p.1 (sc q p.2)))
      rw [min_self, List.take_of_length_le (le_of_eq hlenr)] at hk ⊢
      refine sorted_take_filter _ hmono _ hpair _ ?_
      refine le_min hk ?_
      calc ((sort_scored (vecs.enum.map
              (fun p => VSearchResult.mk p.1 (sc q p.2)))).filter
            (fun r => decide (r.score ≥ t))).length
          ≤ (sort_scored (vecs.enum.map
              (fun p => VSearchResult.mk p.1 (sc q p.2)))).length :=
            List.length_filter_le _ _
        _ = vecs.length := hlenr

/-- With enough `top_k` headroom for every qualifying entry, the candidate
list of `search_code` does not depend on `limit`/`offset`. -/
theorem search_candidates_stable {α : Type} (sc : α → α → ℚ) (disk : VectorDisk α)
    (repo_id : String) (chunk_db : String → Option CodeChunkRow) (query : α)
    (t : ℚ) (ff : Option (String → Bool)) (limit offset limit2 offset2 : Nat)
    (h1 : qualifying_count sc disk repo_id query t ≤ limit + offset + 50)
    (h2 : qualifying_count sc disk repo_id query t ≤ limit2 + offset2 + 50) :
    search_candidates sc disk repo_id chunk_db query limit offset t ff =
      search_candidates sc disk repo_id chunk_db query limit2 offset2 t ff := by
  unfold qualifying_count at h1 h2
  simp only [search_candidates]
  rw [search_top_k_stable sc _ query t (limit + offset + 50) h1,
    search_top_k_stable sc _ query t (limit2 + offset2 + 50) h2]

/-- Slicing `[k·limit : (k+1)·limit]` for `k = 0 … K-1` reassembles a list of
length at most `K·limit`. -/
theorem pages_join {β : Type} (limit : Nat) :
    ∀ (K : Nat) (L : List β), L.length ≤ K * limit →
      ((List.range K).map (fun k => (L.drop (k * limit)).take limit)).flatten = L := by
  intro K
  induction K with
  | zero =>
    intro L h
    have hL : L = [] := List.eq_nil_of_length_eq_zero (by omega)
    subst hL
    simp
  | succ K ih =>
    intro L h
    rw [List.range_succ_eq_map]
    simp only [List.map_cons, List.map_map, List.flatten_cons, Nat.zero_mul,
      List.drop_zero]
    have hcomp : ∀ k ∈ List.range K,
        ((fun k => (L.drop (k * limit)).take limit) ∘ Nat.succ) k =
        (fun k => ((L.drop limit).drop (k * limit)).take limit) k := by
      intro k _
      simp only [Function.comp_apply, List.drop_drop]
      rw [Nat.succ_mul, Nat.add_comm]
    rw [List.map_congr_left hcomp]
    rw [ih (L.drop limit) (by rw [Nat.succ_mul] at h; simp [List.length_drop]; omega)]
    exact List.take_append_drop limit L

/-- C3 counterexample: same query, same index (60 entries all passing the
threshold), same (absent) filter — yet `total` is 51 for
`(limit, offset) = (1, 0)` (top_k hits the `limit + offset + 50` capture
bound) and 60 for `(1, 10)`. -/
theorem search_code_total_varies :
    (search_code c3_sc c3_disk "r1" c3_db 0 1 0 1 none).2 = 51 ∧
    (search_code c3_sc c3_disk "r1" c3_db 0 1 10 1 none).2 = 60 := by
  decide

/-- C3 amended: *provided the number of threshold-passing index entries is at
most `limit + offset + 50` for each call considered*, the total is invariant
under the choice of `offset`/`limit`; and stepping the offset in increments
of `limit` over `K` pages (enough to exhaust the result set) reassembles the
full filtered, score-ordered result list exactly — no duplicates, no
omissions. -/
theorem search_code_paging {α : Type} (sc : α → α → ℚ) (disk : VectorDisk α)
    (repo_id : String) (chunk_db : String → Option CodeChunkRow) (query : α)
    (t : ℚ) (ff : Option (String → Bool)) (limit offset limit2 offset2 K : Nat)
    (hQ1 : qualifying_count sc disk repo_id query t ≤ limit + offset + 50)
    (hQ2 : qualifying_count sc disk repo_id query t ≤ limit2 + offset2 + 50)
    (hQ : qualifying_count sc disk repo_id query t ≤ limit + 50)
    (hK : (search_candidates sc disk repo_id chunk_db query limit 0 t ff).length ≤
      K * limit) :
    (search_code sc disk repo_id chunk_db query limit offset t ff).2 =
      (search_code sc disk repo_id chunk_db query limit2 offset2 t ff).2 ∧
    ((List.range K).map (fun k =>
        (search_code sc disk repo_id chunk_db query limit (k * limit) t ff).1)).flatten =
      search_candidates sc disk repo_id chunk_db query limit 0 t ff := by
  constructor
  · simp only [search_code]
    rw [search_candidates_stable sc disk repo_id chunk_db query t ff limit offset
      limit2 offset2 hQ1 hQ2]
  · have hpage : ∀ k ∈ List.range K,
        (fun k => (search_code sc disk repo_id chunk_db query limit (k * limit)
          t ff).1) k =
        (fun k => ((search_candidates sc disk repo_id chunk_db query limit 0
          t ff).drop (k * limit)).take limit) k := by
      intro k _
      simp only [search_code]
      rw [search_candidates_stable sc disk repo_id chunk_db query t ff limit
        (k * limit) limit 0 (by omega) (by omega)]
    rw [List.map_congr_left hpage]
    exact pages_join limit K _ hK

/-- Witness for C3 (amended) on the concrete 60-entry index with
`limit = 60`, comparing against `(limit, offset) = (30, 31)`, one page. -/
theorem search_code_paging_witness :
    qualifying_count c3_sc c3_disk "r1" 0 1 ≤ 60 + 0 + 50 ∧
    qualifying_count c3_sc c3_disk "r1" 0 1 ≤ 30 + 31 + 50 ∧
    qualifying_count c3_sc c3_disk "r1" 0 1 ≤ 60 + 50 ∧
    (search_candidates c3_sc c3_disk "r1" c3_db 0 60 0 1 none).length ≤ 1 * 60 ∧
    ((search_code c3_sc c3_disk "r1" c3_db 0 60 0 1 none).2 =
        (search_code c3_sc c3_disk "r1" c3_db 0 30 31 1 none).2 ∧
      ((List.range 1).map (fun k =>
          (search_code c3_sc c3_disk "r1" c3_db 0 60 (k * 60) 1 none).1)).flatten =
        search_candidates c3_sc c3_disk "r1" c3_db 0 60 0 1 none) :=
  ⟨by decide, by decide, by decide, by decide,
   search_code_paging c3_sc c3_disk "r1" c3_db 0 1 none 60 0 30 31 1
     (by decide) (by decide) (by decide) (by decide)⟩

/-- Witness for C4 on a concrete three-line text. -/
theorem sliding_window_total_coverage_witness :
    c5w_content ≠ "" ∧
    (sliding_window_chunk c5w_content "notes.txt" none ≠ [] ∧
      goodFrom 1 (split_newlines c5w_content).length
        (sliding_window_chunk c5w_content "notes.txt" none) = true ∧
      spanLines 1 (sliding_window_chunk c5w_content "notes.txt" none) =
        List.range' 1 (split_newlines c5w_content).length ∧
      chunk_chain (sliding_window_chunk c5w_content "notes.txt" none) = true) :=
  ⟨by decide, sliding_window_total_coverage c5w_content "notes.txt" none (by decide)⟩
